import Mathlib

/-!
# nostr-anonymousface: the request handler of `main.go`

A shallow embedding of the HTTP handler registered in `main` (`src/main.go`,
lines 106-205) together with the pure pieces it is built from: the URL
pattern search, the normalisation of the uploaded location, the mask
compositing loop and the construction of the reply event.

External packages (`net/http`, `image`, `pigo`, `resize`, `draw`, `go-nostr`,
`nip19`) are not part of the repository. They enter the model as fields of a
`World` record, one field per call site, so every statement below holds for
any behaviour of those packages unless a hypothesis says otherwise.
-/

namespace AnonymousFace

/-! ## The URL pattern (`main.go` lines 125-132) -/

/-- Quantifier attached to one atom of a regular expression. -/
inductive Quant where
  | one
  | opt
  | plus
  deriving DecidableEq, Repr

/-- One atom of a pattern: a set of admissible characters and how often it repeats. -/
structure Atom where
  accepts : Char → Bool
  quant : Quant

/-- Greedy repetition with backtracking: consume as many accepted characters as
possible, and fall back to a shorter run only when the continuation `k` fails. -/
def matchStar (p : Char → Bool) (k : List Char → Option Nat) : List Char → Option Nat
  | [] => k []
  | c :: cs =>
    if p c then
      match matchStar p k cs with
      | some n => some (n + 1)
      | none => k (c :: cs)
    else k (c :: cs)

/-- Anchored match of a sequence of atoms at the head of the input, with the
preference order of a backtracking search (Go `regexp` leftmost-first
semantics: greedy operators try the longer alternative first). Returns the
number of characters matched. -/
def matchAtoms : List Atom → List Char → Option Nat
  | [], _ => some 0
  | a :: rest, s =>
    match a.quant with
    | .one =>
      match s with
      | [] => none
      | c :: cs => if a.accepts c then (matchAtoms rest cs).map (· + 1) else none
    | .opt =>
      match s with
      | [] => matchAtoms rest []
      | c :: cs =>
        if a.accepts c then
          match matchAtoms rest cs with
          | some n => some (n + 1)
          | none => matchAtoms rest (c :: cs)
        else matchAtoms rest (c :: cs)
    | .plus =>
      match s with
      | [] => none
      | c :: cs =>
        if a.accepts c then (matchStar a.accepts (matchAtoms rest) cs).map (· + 1) else none

/-- Leftmost match: the first start offset at which the anchored match
succeeds, as `(start, end)` offsets into the input. This is element `0` of the
result of `FindAllStringSubmatchIndex`, and `none` when that result is empty. -/
def findFirstFrom (pat : List Atom) (off : Nat) : List Char → Option (Nat × Nat)
  | [] => (matchAtoms pat []).map fun n => (off, off + n)
  | c :: cs =>
    match matchAtoms pat (c :: cs) with
    | some n => some (off, off + n)
    | none => findFirstFrom pat (off + 1) cs

/-- A literal character atom. -/
def lit (c : Char) : Atom := ⟨fun d => d == c, .one⟩

/-- The bracket expression of the pattern:
`[-A-Za-z0-9+&@#\/%?=~_|!:,.;\(\)*]`. -/
def urlClass (c : Char) : Bool :=
  c == '-' || ('A' ≤ c && c ≤ 'Z') || ('a' ≤ c && c ≤ 'z') || ('0' ≤ c && c ≤ '9') ||
  c == '+' || c == '&' || c == '@' || c == '#' || c == '/' || c == '%' || c == '?' ||
  c == '=' || c == '~' || c == '_' || c == '|' || c == '!' || c == ':' || c == ',' ||
  c == '.' || c == ';' || c == '(' || c == ')' || c == '*'

/-- The pattern literal of line 125, atom by atom:
`h t t p s? : / / [class]+`. -/
def urlPattern : List Atom :=
  [lit 'h', lit 't', lit 't', lit 'p', ⟨fun d => d == 's', .opt⟩,
   lit ':', lit '/', lit '/', ⟨urlClass, .plus⟩]

/-- Lines 127-132: `matches[0]` sliced out of the content, `none` when
`len(matches) == 0`. -/
def extractUrl (content : String) : Option String :=
  (findFirstFrom urlPattern 0 content.toList).map fun m =>
    String.mk ((content.toList.drop m.1).take (m.2 - m.1))


/-! ## The URL as the specification words it -/

/-- A URL with the given scheme begins at the head of `s`: the scheme text,
then the maximal run of class characters, which must be non-empty. -/
def schemeRun (scheme s : List Char) : Option (List Char) :=
  if scheme.isPrefixOf s then
    match (s.drop scheme.length).takeWhile urlClass with
    | [] => none
    | c :: run => some (scheme ++ c :: run)
  else none

/-- A URL begins at the head of `s`: `http://` or `https://` followed by at
least one class character, extended to the maximal run of class characters. -/
def specUrlAt (s : List Char) : Option (List Char) :=
  match schemeRun "http://".toList s with
  | some u => some u
  | none => schemeRun "https://".toList s

/-- The URL at the earliest position of `s` at which one begins. -/
def specFirstUrl : List Char → Option (List Char)
  | [] => none
  | c :: cs =>
    match specUrlAt (c :: cs) with
    | some u => some u
    | none => specFirstUrl cs

/-- An occurrence of `http://` or `https://` followed by at least one class
character begins at the head of `t`. -/
def UrlStartsAt (t : List Char) : Prop :=
  ∃ scheme c, (scheme = "http://".toList ∨ scheme = "https://".toList) ∧
    urlClass c = true ∧ scheme ++ [c] <+: t

/-! ## Normalisation of the uploaded location (`main.go` lines 180-183) -/

/-- Lines 180-183: `if strings.HasPrefix(uploaded, "http://")` then
`uploaded = "https" + uploaded[4:]`, and afterwards `uploaded += ".png"`. -/
def normalizeUploaded (uploaded : String) : String :=
  let uploaded :=
    if "http://".toList.isPrefixOf uploaded.toList then
      "https" ++ String.mk (uploaded.toList.drop 4)
    else uploaded
  uploaded ++ ".png"

/-! ## Data carried through a request -/

deriving instance DecidableEq for Except

/-- Raw bytes (an HTTP body, an encoded image). -/
abbrev Bytes := List Nat

/-- The fields of `nostr.Event`. -/
structure Event where
  id : String
  pubKey : String
  createdAt : Int
  kind : Int
  tags : List (List String)
  content : String
  sig : String
  deriving DecidableEq, Repr

/-- `Tags.ContainsAny(tagName, values)` of go-nostr: some tag has at least two
elements, its first element is `tagName` and its second is one of `values`. -/
def containsAny (tags : List (List String)) (tagName : String) (values : List String) : Bool :=
  tags.any fun tag =>
    match tag with
    | k :: v :: _ => k == tagName && values.contains v
    | _ => false

/-- A decimal literal of the source (`0.1`, `1.1`, `0.18`): `digits * 10 ^ exp10`. -/
structure Decimal where
  digits : Nat
  exp10 : Int
  deriving DecidableEq, Repr

/-- The fields of `pigo.Detection` the handler reads. -/
structure Detection where
  row : Int
  col : Int
  scale : Int
  deriving DecidableEq, Repr

/-- An `image.Rectangle`: `Min.X, Min.Y, Max.X, Max.Y`. -/
structure Rect where
  minX : Int
  minY : Int
  maxX : Int
  maxY : Int
  deriving DecidableEq, Repr

/-- The `pigo.CascadeParams` value built at lines 146-157. -/
structure CascadeParams where
  minSize : Int
  maxSize : Int
  shiftFactor : Decimal
  scaleFactor : Decimal
  pixels : Bytes
  rows : Int
  cols : Int
  dim : Int
  deriving DecidableEq, Repr

/-- What `http.Get` hands back when it returns no error: the status code and
the body stream's content. -/
structure FetchResponse where
  status : Nat
  body : Bytes
  deriving DecidableEq, Repr

/-- The request `upload` sends with `http.DefaultClient.Do`. -/
structure UploadRequest where
  method : String
  url : String
  headers : List (String × String)
  body : Bytes
  deriving DecidableEq, Repr

/-- The dynamically typed second result of `nip19.Decode`: a string, or a value
of another type (on which the assertion `s.(string)` panics). -/
inductive NipValue where
  | str (s : String)
  | other
  deriving DecidableEq, Repr

/-- An inbound HTTP request: method and raw body. -/
structure Request where
  method : String
  body : String
  deriving DecidableEq, Repr

/-- Everything the handler calls that lives outside the repository, one field
per call site. `Img` is an `image.Image`, `Canvas` an `*image.RGBA`. -/
structure World (Img Canvas : Type) where
  /-- Call `json.NewDecoder(r.Body).Decode(&ev)`. -/
  jsonDecode : String → Except String Event
  /-- Call `http.Get(u)`. -/
  httpGet : String → Except String FetchResponse
  /-- Call `image.Decode(resp.Body)`. -/
  imageDecode : Bytes → Except String Img
  /-- Value `img.Bounds()`. -/
  bounds : Img → Rect
  /-- Value `pigo.RgbToGrayscale(pigo.ImgToNRGBA(img))`. -/
  grayscale : Img → Bytes
  /-- Call `classifier.RunCascade(param, angle)`. -/
  runCascade : CascadeParams → Decimal → List Detection
  /-- Call `classifier.ClusterDetections(faces, threshold)`. -/
  clusterDetections : List Detection → Decimal → List Detection
  /-- Call `image.NewRGBA(r)`. -/
  newRGBA : Rect → Canvas
  /-- Call `draw.Draw(canvas, r, img, sp, draw.Over)`. -/
  drawOver : Canvas → Rect → Img → Int × Int → Canvas
  /-- The global `maskImg`, decoded once in `init`. -/
  maskImg : Img
  /-- Call `resize.Resize(width, height, img, resize.NearestNeighbor)`. -/
  resize : Nat → Nat → Img → Img
  /-- Call `draw.Copy(canvas, pt, src, sr, draw.Over, nil)`. -/
  drawCopy : Canvas → Int × Int → Img → Rect → Canvas
  /-- Call `png.Encode(&buf, canvas)`. -/
  pngEncode : Canvas → Except String Bytes
  /-- Value `hex.EncodeToString(sha256.Sum256(b))`. -/
  sha256Hex : Bytes → String
  /-- Call `http.DefaultClient.Do(req)` followed by `ioutil.ReadAll(resp.Body)`:
  the outer error is the one of `Do`, the inner one the one of `ReadAll`. -/
  httpDo : UploadRequest → Except String (Except String String)
  /-- The environment variable `ANONYMOUSFACE_NSEC` read in `main`. -/
  nsec : String
  /-- Call `nip19.Decode(nsec)`. -/
  nip19Decode : String → Except String NipValue
  /-- Call `nostr.GetPublicKey(sk)`. -/
  getPublicKey : String → Except String String
  /-- Value `nostr.Now()`. -/
  now : Int
  /-- Call `ev.Sign(sk)`: the receiver after the call and the returned error. -/
  sign : String → Event → Event × Option String

/-! ## `upload` (`main.go` lines 78-98) -/

/-- Lines 79-86: the request `upload` builds for a buffer. -/
def uploadRequest {Img Canvas : Type} (w : World Img Canvas) (buf : Bytes) : UploadRequest :=
  { method := "POST"
    url := "https://void.cat/upload?cli=true"
    headers := [("V-Content-Type", "image/png"), ("V-Full-Digest", w.sha256Hex buf),
      ("V-Filename", "image.png")]
    body := buf }

/-- Lines 79-97: send the request, read the whole response body and return it as
a string; the response status is not inspected. (`http.NewRequest` is called
with a constant method and URL, for which it returns no error.) -/
def upload {Img Canvas : Type} (w : World Img Canvas) (buf : Bytes) : Except String String :=
  match w.httpDo (uploadRequest w buf) with
  | .error e => .error e
  | .ok (.error e) => .error e
  | .ok (.ok b) => .ok b

/-! ## The compositing loop (`main.go` lines 161-167) -/

/-- Two's-complement wrap of a Go `int` (64 bits). -/
def wrapInt (x : Int) : Int := (x + 2 ^ 63) % 2 ^ 64 - 2 ^ 63

/-- The conversion `uint(x)` of a Go `int`. -/
def toUint (x : Int) : Nat := (x % 2 ^ 64).toNat

/-- Line 164: `image.Point{face.Col - face.Scale/2, face.Row - face.Scale/2}`;
Go's `/` on `int` truncates toward zero. -/
def facePoint (face : Detection) : Int × Int :=
  (wrapInt (face.col - Int.tdiv face.scale 2), wrapInt (face.row - Int.tdiv face.scale 2))

/-- Lines 164-166: the body of the loop for one face. -/
def drawFace {Img Canvas : Type} (w : World Img Canvas) (canvas : Canvas) (face : Detection) :
    Canvas :=
  let pt := facePoint face
  let fimg := w.resize (toUint face.scale) (toUint face.scale) w.maskImg
  w.drawCopy canvas pt fimg (w.bounds fimg)

/-- Lines 161-162: a fresh canvas with the decoded image drawn on it. -/
def baseCanvas {Img Canvas : Type} (w : World Img Canvas) (img : Img) : Canvas :=
  w.drawOver (w.newRGBA (w.bounds img)) (w.bounds img) img (0, 0)

/-- Lines 161-167: the base canvas, then the loop over `faces` in order. -/
def composite {Img Canvas : Type} (w : World Img Canvas) (img : Img) (faces : List Detection) :
    Canvas :=
  faces.foldl (drawFace w) (baseCanvas w img)

/-- Lines 145-157: the cascade parameters for a decoded image. -/
def cascadeParams {Img Canvas : Type} (w : World Img Canvas) (img : Img) : CascadeParams :=
  { minSize := 20
    maxSize := 2000
    shiftFactor := ⟨1, -1⟩
    scaleFactor := ⟨11, -1⟩
    pixels := w.grayscale img
    rows := (w.bounds img).maxY
    cols := (w.bounds img).maxX
    dim := (w.bounds img).maxX }

/-- Lines 158-159: run the cascade at angle `0`, then cluster with threshold `0.18`. -/
def detectFaces {Img Canvas : Type} (w : World Img Canvas) (img : Img) : List Detection :=
  w.clusterDetections (w.runCascade (cascadeParams w img) ⟨0, 0⟩) ⟨18, -2⟩

/-! ## The reply event (`main.go` lines 196-200) -/

/-- Lines 196-200, assignment by assignment, on the event decoded from the
request: `ev.PubKey = pub`, then `ev.Tags` built from the current `ev.PubKey`,
then `ev.CreatedAt`, then `ev.Content`. -/
def replyEvent (ev : Event) (pub : String) (now : Int) (uploaded : String) : Event :=
  let ev := { ev with pubKey := pub }
  let ev := { ev with tags := [["e", ev.pubKey, "", "reply"]] }
  let ev := { ev with createdAt := now }
  { ev with content := uploaded }

/-! ## The handler (`main.go` lines 106-205) -/

/-- What a request does that is visible outside the handler, in order. -/
inductive Effect where
  /-- Call `http.Get(u)`. -/
  | fetch (url : String)
  /-- Call `image.Decode(resp.Body)`. -/
  | decodeImage (body : Bytes)
  /-- Call `http.DefaultClient.Do(req)` inside `upload`. -/
  | publish (req : UploadRequest)
  /-- Call `http.Error(w, msg, code)`: a plain-text response with that status. -/
  | httpError (msg : String) (code : Nat)
  /-- Call `fmt.Fprintln(w, text)`: a body written with the implicit status 200. -/
  | writeText (text : String)
  /-- Call `json.NewEncoder(w).Encode(ev)`: the event written with status 200. -/
  | writeJSON (ev : Event)
  deriving DecidableEq, Repr

/-- The run of one request: its effects, and whether it ended in a runtime
panic (in which case nothing further is written to the response). -/
structure Run where
  effects : List Effect
  panicked : Bool
  deriving DecidableEq, Repr

/-- The text a GET is answered with (line 110). -/
def usageText : String :=
  "curl -i -X POST -F image=@input.jpg http://anonymousface.compile-error.net > out.jpg"

/-- `http.StatusInternalServerError`. -/
def statusInternalServerError : Nat := 500

/-- Lines 185-204: key handling, reply construction, signing, emission. `pre`
holds the effects of the request so far. The error returned by `ev.Sign(sk)`
on line 201 is dropped and the receiver is encoded whatever it was. -/
def signAndEmit {Img Canvas : Type} (w : World Img Canvas) (pre : List Effect) (ev : Event)
    (uploaded : String) : Run :=
  match w.nip19Decode w.nsec with
  | .error e => ⟨pre ++ [.httpError e statusInternalServerError], false⟩
  | .ok .other => ⟨pre, true⟩
  | .ok (.str sk) =>
    match w.getPublicKey sk with
    | .error e => ⟨pre ++ [.httpError e statusInternalServerError], false⟩
    | .ok pub =>
      let ev := replyEvent ev pub w.now uploaded
      let ev := (w.sign sk ev).1
      ⟨pre ++ [.writeJSON ev], false⟩

/-- Lines 133-183: fetch, decode, detect, composite, encode, publish, normalise. -/
def processUrl {Img Canvas : Type} (w : World Img Canvas) (ev : Event) (u : String) : Run :=
  match w.httpGet u with
  | .error e => ⟨[.fetch u, .httpError e statusInternalServerError], false⟩
  | .ok resp =>
    match w.imageDecode resp.body with
    | .error e =>
      ⟨[.fetch u, .decodeImage resp.body, .httpError e statusInternalServerError], false⟩
    | .ok img =>
      let faces := detectFaces w img
      let canvas := composite w img faces
      match w.pngEncode canvas with
      | .error e =>
        ⟨[.fetch u, .decodeImage resp.body, .httpError e statusInternalServerError], false⟩
      | .ok buf =>
        match upload w buf with
        | .error e =>
          ⟨[.fetch u, .decodeImage resp.body, .publish (uploadRequest w buf),
            .httpError e statusInternalServerError], false⟩
        | .ok uploaded =>
          signAndEmit w [.fetch u, .decodeImage resp.body, .publish (uploadRequest w buf)] ev
            (normalizeUploaded uploaded)

/-- The handler of lines 106-205. On lines 121 and 129 the variable `err` still
holds the `nil` left by the successful decode of line 115, so evaluating
`err.Error()` panics before `http.Error` is entered. -/
def handler {Img Canvas : Type} (w : World Img Canvas) (r : Request) : Run :=
  if r.method = "GET" then ⟨[.writeText usageText], false⟩
  else
    match w.jsonDecode r.body with
    | .error e => ⟨[.httpError e statusInternalServerError], false⟩
    | .ok ev =>
      if !containsAny ev.tags "t" ["anonymousface"] then ⟨[], true⟩
      else
        match extractUrl ev.content with
        | none => ⟨[], true⟩
        | some u => processUrl w ev u

/-! ## The compositing loop as the specification words it -/

/-- One overlay: the top-left corner and the side of the square. -/
structure Overlay where
  x : Int
  y : Int
  side : Nat
  deriving DecidableEq, Repr

/-- The overlay of a cluster: anchored at `(column − scale/2, row − scale/2)`,
side `scale`. -/
def specOverlay (face : Detection) : Overlay :=
  ⟨face.col - face.scale / 2, face.row - face.scale / 2, face.scale.toNat⟩

/-- Draw one overlay: the mask resampled to `side × side`, copied onto the
canvas at the overlay's corner. -/
def drawOverlay {Img Canvas : Type} (w : World Img Canvas) (canvas : Canvas) (o : Overlay) :
    Canvas :=
  w.drawCopy canvas (o.x, o.y) (w.resize o.side o.side w.maskImg)
    (w.bounds (w.resize o.side o.side w.maskImg))

/-- A cluster whose scale is not negative and for which the scale and the two
corner coordinates `column − scale/2`, `row − scale/2` fit a 64-bit `int`. -/
def Detection.InRange (face : Detection) : Prop :=
  0 ≤ face.scale ∧ face.scale < 2 ^ 63 ∧
  -(2 ^ 63) ≤ face.col - face.scale / 2 ∧ face.col - face.scale / 2 < 2 ^ 63 ∧
  -(2 ^ 63) ≤ face.row - face.scale / 2 ∧ face.row - face.scale / 2 < 2 ^ 63

/-! ## Signing -/

/-- The fields of a message that the claims about signing speak of: author,
timestamp, tags and content. -/
def signedFields (ev : Event) : String × Int × List (List String) × String :=
  (ev.pubKey, ev.createdAt, ev.tags, ev.content)

/-- The same world with the status of every fetch response rewritten by `f`. -/
def World.mapStatus {Img Canvas : Type} (w : World Img Canvas) (f : Nat → Nat) :
    World Img Canvas :=
  { w with httpGet := fun u =>
      match w.httpGet u with
      | .error e => .error e
      | .ok resp => .ok { resp with status := f resp.status } }

/-! ## A concrete world for examples -/

/-- A canvas that records what was drawn on it: `(x, y, width, height)` of every
image drawn or copied, oldest first. -/
abbrev DemoCanvas := List (Int × Int × Nat × Nat)

/-- The event a non-empty body stands for in `demoWorld`. -/
def demoInbound (body : String) : Event :=
  { id := "id0", pubKey := "alice", createdAt := 1, kind := 1
    tags := if body.toList.head? = some '!' then [] else [["t", "anonymousface"]]
    content := body, sig := "sig0" }

/-- A small world. Images are their `(width, height)`. The request body stands
for the decoded event: an empty body does not parse, a body starting with `!`
parses to an event without tags, any other body to an event tagged
`["t", "anonymousface"]`; the content is the body. The author of every inbound
event is `alice`, the key derived from the secret is `bot`. One face is found,
at row 100, column 100, scale 40. -/
def demoWorld (status : Nat) (decodes signs : Bool) : World (Nat × Nat) DemoCanvas where
  jsonDecode body := if body = "" then .error "EOF" else .ok (demoInbound body)
  httpGet u :=
    if u = "https://example.com/down" then .error "dial tcp: i/o timeout"
    else .ok ⟨status, [1, 2, 3]⟩
  imageDecode _ := if decodes then .ok (200, 200) else .error "image: unknown format"
  bounds img := ⟨0, 0, img.1, img.2⟩
  grayscale _ := []
  runCascade _ _ := [⟨100, 100, 40⟩]
  clusterDetections faces _ := faces
  newRGBA _ := []
  drawOver canvas _ img sp := canvas ++ [(sp.1, sp.2, img.1, img.2)]
  maskImg := (64, 64)
  resize width height _ := (width, height)
  drawCopy canvas pt src _ := canvas ++ [(pt.1, pt.2, src.1, src.2)]
  pngEncode _ := .ok [137, 80, 78, 71]
  sha256Hex _ := "00"
  httpDo _ := .ok (.ok "http://void.cat/d/abc")
  nsec := "nsec1demo"
  nip19Decode _ := .ok (.str "5ec")
  getPublicKey _ := .ok "bot"
  now := 1700000000
  sign sk ev :=
    if signs then ({ ev with id := "id1", sig := "sig:" ++ sk }, none)
    else (ev, some "sign failed")

/-- The scenario request of the specification. -/
def demoRequest : Request :=
  ⟨"POST", "check this out https://example.com/a.jpg #anonymousface"⟩

/-! ## Lemmas on the pattern search -/

theorem matchStar_done (p : Char → Bool) (s : List Char) :
    matchStar p (fun _ => some 0) s = some (s.takeWhile p).length := by
  induction s with
  | nil => simp [matchStar]
  | cons c cs ih =>
    by_cases h : p c = true
    · simp [matchStar, h, ih]
    · simp [matchStar, h]

theorem matchAtoms_nil_fun : matchAtoms [] = fun _ => some 0 := by
  funext s
  simp [matchAtoms]

theorem matchAtoms_plus (p : Char → Bool) (s : List Char) :
    matchAtoms [⟨p, .plus⟩] s =
      match s.takeWhile p with
      | [] => none
      | c :: run => some (c :: run).length := by
  cases s with
  | nil => simp [matchAtoms]
  | cons c cs =>
    by_cases h : p c = true
    · simp [matchAtoms, h, matchAtoms_nil_fun, matchStar_done]
    · simp [matchAtoms, h]

theorem matchAtoms_lit (c : Char) (rest : List Atom) (s : List Char) :
    matchAtoms (lit c :: rest) s =
      match s with
      | [] => none
      | d :: ds => if d = c then (matchAtoms rest ds).map (· + 1) else none := by
  cases s with
  | nil => simp [matchAtoms, lit]
  | cons d ds => simp [matchAtoms, lit]

theorem matchAtoms_lits (cs : List Char) (rest : List Atom) (s : List Char) :
    matchAtoms (cs.map lit ++ rest) s =
      if cs.isPrefixOf s then (matchAtoms rest (s.drop cs.length)).map (· + cs.length)
      else none := by
  induction cs generalizing s with
  | nil => simp
  | cons c cs ih =>
    cases s with
    | nil => simp [matchAtoms_lit]
    | cons d ds =>
      by_cases h : d = c
      · subst h
        simp only [List.map_cons, List.cons_append, matchAtoms_lit, ih]
        by_cases hp : cs.isPrefixOf ds = true
        · simp [hp, Nat.add_assoc, Nat.add_comm 1]
        · simp [hp]
      · have h2 : ¬ c = d := fun e => h e.symm
        simp [matchAtoms_lit, h, h2]

theorem schemeRun_append (scheme t : List Char) :
    schemeRun scheme (scheme ++ t) =
      match t.takeWhile urlClass with
      | [] => none
      | c :: run => some (scheme ++ c :: run) := by
  simp [schemeRun]

theorem schemeRun_of_not_prefix (scheme s : List Char) (h : scheme.isPrefixOf s = false) :
    schemeRun scheme s = none := by
  simp [schemeRun, h]

/-- The pattern after the optional `s`. -/
theorem matchAtoms_tail (t : List Char) :
    matchAtoms ([':', '/', '/'].map lit ++ [⟨urlClass, .plus⟩]) t =
      if [':', '/', '/'].isPrefixOf t then
        match (t.drop 3).takeWhile urlClass with
        | [] => none
        | c :: run => some ((c :: run).length + 3)
      else none := by
  rw [matchAtoms_lits, matchAtoms_plus]
  by_cases h : [':', '/', '/'].isPrefixOf t = true
  · simp only [h, if_true, List.length_cons, List.length_nil]
    cases (List.drop 3 t).takeWhile urlClass <;> simp
  · simp [h]

theorem urlPattern_eq :
    urlPattern = ['h', 't', 't', 'p'].map lit ++
      (⟨fun d => d == 's', .opt⟩ :: ([':', '/', '/'].map lit ++ [⟨urlClass, .plus⟩])) := rfl

theorem matchAtoms_opt (p : Char → Bool) (rest : List Atom) (s : List Char) :
    matchAtoms (⟨p, .opt⟩ :: rest) s =
      match s with
      | [] => matchAtoms rest []
      | c :: cs =>
        if p c then
          match matchAtoms rest cs with
          | some n => some (n + 1)
          | none => matchAtoms rest (c :: cs)
        else matchAtoms rest (c :: cs) := by
  cases s <;> simp [matchAtoms]

theorem take_of_takeWhile (p : Char → Bool) (r : List Char) (a : Char) (run : List Char)
    (hr : r.takeWhile p = a :: run) : r.take (run.length + 1) = a :: run := by
  have h1 : a :: run <+: r := hr ▸ List.takeWhile_prefix p
  have h2 := List.prefix_iff_eq_take.mp h1
  simpa using h2.symm

theorem matchAtoms_url (s : List Char) :
    (matchAtoms urlPattern s).map (fun n => s.take n) = specUrlAt s := by
  have e1 : "http://".toList = ['h', 't', 't', 'p', ':', '/', '/'] := rfl
  have e2 : "https://".toList = ['h', 't', 't', 'p', 's', ':', '/', '/'] := rfl
  rw [urlPattern_eq, matchAtoms_lits, specUrlAt, e1, e2]
  by_cases h : ['h', 't', 't', 'p'].isPrefixOf s = true
  · obtain ⟨t, rfl⟩ := List.isPrefixOf_iff_prefix.mp h
    simp only [h, if_true, matchAtoms_opt, matchAtoms_tail]
    rcases t with _ | ⟨c, cs⟩
    · simp [schemeRun]
    · by_cases hc : c = 's'
      · subst hc
        by_cases h3 : [':', '/', '/'].isPrefixOf cs = true
        · obtain ⟨r, rfl⟩ := List.isPrefixOf_iff_prefix.mp h3
          simp [schemeRun]
          cases hr : List.takeWhile urlClass r with
          | nil => simp
          | cons a run =>
            simp
            exact take_of_takeWhile urlClass r a run hr
        · simp [schemeRun, h3]
      · by_cases h3 : [':', '/', '/'].isPrefixOf (c :: cs) = true
        · obtain ⟨r, hr⟩ := List.isPrefixOf_iff_prefix.mp h3
          rw [← hr]
          simp [schemeRun]
          cases hr : List.takeWhile urlClass r with
          | nil => simp
          | cons a run =>
            simp
            exact take_of_takeWhile urlClass r a run hr
        · have hc2 : ¬ 's' = c := fun e => hc e.symm
          simp [schemeRun, h3, hc2]
          intro e
          exact absurd e hc
  · have h0 : ¬ ['h', 't', 't', 'p'] <+: s := fun e => h (List.isPrefixOf_iff_prefix.mpr e)
    have h1 : ¬ ['h', 't', 't', 'p', ':', '/', '/'] <+: s := fun e =>
      h0 ((List.prefix_append ['h', 't', 't', 'p'] [':', '/', '/']).trans e)
    have h2 : ¬ ['h', 't', 't', 'p', 's', ':', '/', '/'] <+: s := fun e =>
      h0 ((List.prefix_append ['h', 't', 't', 'p'] ['s', ':', '/', '/']).trans e)
    simp [h, schemeRun, h1, h2]



/-- The leftmost match as a substring, without offsets. -/
theorem findFirstFrom_slice (pat : List Atom) (pre s : List Char) :
    (findFirstFrom pat pre.length s).map
        (fun m => ((pre ++ s).drop m.1).take (m.2 - m.1)) =
      match s with
      | [] => (matchAtoms pat []).map fun n => ([] : List Char).take n
      | c :: cs =>
        match matchAtoms pat (c :: cs) with
        | some n => some ((c :: cs).take n)
        | none => (findFirstFrom pat (pre.length + 1) cs).map
            (fun m => ((pre ++ c :: cs).drop m.1).take (m.2 - m.1)) := by
  cases s with
  | nil =>
    simp only [findFirstFrom, Option.map_map]
    cases matchAtoms pat [] <;> simp
  | cons c cs =>
    simp only [findFirstFrom]
    cases h : matchAtoms pat (c :: cs) with
    | none => simp
    | some n => simp

theorem findFirstFrom_url (pre s : List Char) :
    (findFirstFrom urlPattern pre.length s).map
        (fun m => ((pre ++ s).drop m.1).take (m.2 - m.1)) = specFirstUrl s := by
  induction s generalizing pre with
  | nil =>
    rw [findFirstFrom_slice]
    have := matchAtoms_url []
    simpa [specFirstUrl, specUrlAt, schemeRun] using this
  | cons c cs ih =>
    rw [findFirstFrom_slice]
    have hm := matchAtoms_url (c :: cs)
    simp only [specFirstUrl]
    cases h : matchAtoms urlPattern (c :: cs) with
    | some n =>
      rw [h] at hm
      simp only [Option.map_some'] at hm
      simp [← hm]
    | none =>
      rw [h] at hm
      simp only [Option.map_none'] at hm
      simp only [← hm]
      have := ih (pre ++ [c])
      simpa using this

theorem extractUrl_eq_spec (content : String) :
    extractUrl content = (specFirstUrl content.toList).map String.mk := by
  have := findFirstFrom_url [] content.toList
  simp only [List.length_nil, List.nil_append] at this
  rw [← this, extractUrl, Option.map_map]
  rfl

/-! ## Lemmas on the handler -/

theorem handler_accepted {Img Canvas : Type} (w : World Img Canvas) (r : Request) (ev : Event)
    (u : String) (hm : r.method ≠ "GET") (hd : w.jsonDecode r.body = .ok ev)
    (ht : containsAny ev.tags "t" ["anonymousface"] = true)
    (hu : extractUrl ev.content = some u) : handler w r = processUrl w ev u := by
  simp [handler, hm, hd, ht, hu]

theorem handler_rejected {Img Canvas : Type} (w : World Img Canvas) (r : Request) (ev : Event)
    (hm : r.method ≠ "GET") (hd : w.jsonDecode r.body = .ok ev)
    (h : containsAny ev.tags "t" ["anonymousface"] = false ∨ extractUrl ev.content = none) :
    handler w r = ⟨[], true⟩ := by
  rcases h with h | h
  · simp [handler, hm, hd, h]
  · by_cases ht : containsAny ev.tags "t" ["anonymousface"] = true
    · simp [handler, hm, hd, ht, h]
    · simp [handler, hm, hd, ht]

theorem processUrl_success {Img Canvas : Type} (w : World Img Canvas) (ev : Event) (u : String)
    (resp : FetchResponse) (img : Img) (buf : Bytes) (uploaded sk pub : String)
    (hf : w.httpGet u = .ok resp) (hi : w.imageDecode resp.body = .ok img)
    (he : w.pngEncode (composite w img (detectFaces w img)) = .ok buf)
    (hp : upload w buf = .ok uploaded) (hn : w.nip19Decode w.nsec = .ok (.str sk))
    (hk : w.getPublicKey sk = .ok pub) :
    processUrl w ev u =
      ⟨[.fetch u, .decodeImage resp.body, .publish (uploadRequest w buf),
        .writeJSON (w.sign sk (replyEvent ev pub w.now (normalizeUploaded uploaded))).1],
        false⟩ := by
  simp [processUrl, signAndEmit, hf, hi, he, hp, hn, hk]

theorem processUrl_head_fetch {Img Canvas : Type} (w : World Img Canvas) (ev : Event)
    (u : String) : (processUrl w ev u).effects.head? = some (.fetch u) := by
  unfold processUrl
  split
  · rfl
  · split
    · rfl
    · simp only
      split
      · rfl
      · split
        · rfl
        · unfold signAndEmit
          split
          · rfl
          · rfl
          · split <;> rfl

theorem processUrl_mapStatus {Img Canvas : Type} (w : World Img Canvas) (f : Nat → Nat)
    (ev : Event) (u : String) : processUrl (w.mapStatus f) ev u = processUrl w ev u := by
  cases h : w.httpGet u with
  | error e =>
    have h2 : (w.mapStatus f).httpGet u = .error e := by simp [World.mapStatus, h]
    simp [processUrl, h, h2]
  | ok resp =>
    have h2 : (w.mapStatus f).httpGet u = .ok { resp with status := f resp.status } := by
      simp [World.mapStatus, h]
    simp only [processUrl, h, h2]
    rfl

theorem schemeRun_some (scheme s u : List Char) (h : schemeRun scheme s = some u) :
    ∃ run post, u = scheme ++ run ∧ run ≠ [] ∧ (∀ c ∈ run, urlClass c = true) ∧
      s = u ++ post ∧ ∀ c, post.head? = some c → urlClass c = false := by
  unfold schemeRun at h
  split at h
  · rename_i hp
    obtain ⟨t, rfl⟩ := List.isPrefixOf_iff_prefix.mp hp
    rw [List.drop_left] at h
    cases htw : List.takeWhile urlClass t with
    | nil => simp [htw] at h
    | cons c run =>
      simp only [htw, Option.some.injEq] at h
      subst h
      refine ⟨c :: run, t.dropWhile urlClass, rfl, by simp, ?_, ?_, ?_⟩
      · intro d hd
        rw [← htw] at hd
        exact List.mem_takeWhile_imp hd
      · rw [List.append_assoc, ← htw, List.takeWhile_append_dropWhile]
      · intro d hd
        have := List.head?_dropWhile_not urlClass t
        rw [hd] at this
        simpa using this
  · simp at h

theorem specUrlAt_some (s u : List Char) (h : specUrlAt s = some u) :
    ∃ scheme run post, (scheme = "http://".toList ∨ scheme = "https://".toList) ∧
      u = scheme ++ run ∧ run ≠ [] ∧ (∀ c ∈ run, urlClass c = true) ∧
      s = u ++ post ∧ ∀ c, post.head? = some c → urlClass c = false := by
  unfold specUrlAt at h
  split at h
  · rename_i v hv
    simp only [Option.some.injEq] at h
    subst h
    obtain ⟨run, post, h1, h2, h3, h4, h5⟩ := schemeRun_some _ _ _ hv
    exact ⟨_, run, post, Or.inl rfl, h1, h2, h3, h4, h5⟩
  · obtain ⟨run, post, h1, h2, h3, h4, h5⟩ := schemeRun_some _ _ _ h
    exact ⟨_, run, post, Or.inr rfl, h1, h2, h3, h4, h5⟩

theorem schemeRun_of_starts (scheme : List Char) (c : Char) (t : List Char)
    (hc : urlClass c = true) (hp : scheme ++ [c] <+: t) : (schemeRun scheme t).isSome = true := by
  obtain ⟨rest, rfl⟩ := hp
  have : scheme ++ [c] ++ rest = scheme ++ (c :: rest) := by simp
  rw [this, schemeRun_append]
  simp [List.takeWhile_cons, hc]

theorem not_urlStartsAt_of_specUrlAt_none (t : List Char) (h : specUrlAt t = none) :
    ¬ UrlStartsAt t := by
  rintro ⟨scheme, c, hs, hc, hp⟩
  have h1 := schemeRun_of_starts scheme c t hc hp
  unfold specUrlAt at h
  rcases hs with rfl | rfl
  · cases hv : schemeRun "http://".toList t with
    | none =>
      rw [hv] at h1
      cases h1
    | some v =>
      rw [hv] at h
      cases h
  · cases hv : schemeRun "http://".toList t with
    | none =>
      rw [hv] at h
      have h2 : schemeRun "https://".toList t = none := h
      rw [h2] at h1
      cases h1
    | some v =>
      rw [hv] at h
      cases h

theorem specFirstUrl_some (s u : List Char) (h : specFirstUrl s = some u) :
    ∃ pre rest, s = pre ++ rest ∧ specUrlAt rest = some u ∧
      ∀ k, k < pre.length → ¬ UrlStartsAt (s.drop k) := by
  induction s with
  | nil => simp [specFirstUrl] at h
  | cons c cs ih =>
    unfold specFirstUrl at h
    cases hv : specUrlAt (c :: cs) with
    | some v =>
      simp only [hv, Option.some.injEq] at h
      subst h
      exact ⟨[], c :: cs, rfl, hv, fun k hk => absurd hk (by simp)⟩
    | none =>
      simp only [hv] at h
      obtain ⟨pre, rest, h1, h2, h3⟩ := ih h
      refine ⟨c :: pre, rest, by simp [h1], h2, ?_⟩
      intro k hk
      cases k with
      | zero => exact not_urlStartsAt_of_specUrlAt_none _ hv
      | succ k =>
        simp only [List.drop_succ_cons]
        exact h3 k (by simpa using hk)

theorem not_urlStartsAt_of_specFirstUrl_none (s : List Char) (h : specFirstUrl s = none) :
    ∀ k, ¬ UrlStartsAt (s.drop k) := by
  induction s with
  | nil =>
    intro k
    rintro ⟨scheme, c, _, _, hp⟩
    rw [List.drop_nil] at hp
    have := hp.length_le
    simp at this
  | cons c cs ih =>
    unfold specFirstUrl at h
    cases hv : specUrlAt (c :: cs) with
    | some v =>
      rw [hv] at h
      cases h
    | none =>
      rw [hv] at h
      intro k
      cases k with
      | zero => exact not_urlStartsAt_of_specUrlAt_none _ hv
      | succ k =>
        simp only [List.drop_succ_cons]
        exact ih h k

/-! ## The claims -/

/-- C3: an inbound message that parses but carries no tag `["t", "anonymousface"]`,
or whose content has no match of the URL pattern, causes no image fetch and no
publish call: nothing the request does is an `http.Get` or an upload. -/
theorem no_fetch_without_trigger_or_url {Img Canvas : Type} (w : World Img Canvas)
    (r : Request) (ev : Event) (hd : w.jsonDecode r.body = .ok ev)
    (h : containsAny ev.tags "t" ["anonymousface"] = false ∨ extractUrl ev.content = none) :
    ∀ x ∈ (handler w r).effects, (∀ u, x ≠ .fetch u) ∧ (∀ q, x ≠ .publish q) := by
  by_cases hm : r.method = "GET"
  · intro x hx
    simp only [handler, hm, if_true, List.mem_singleton] at hx
    subst hx
    exact ⟨fun u hu => Effect.noConfusion hu, fun q hq => Effect.noConfusion hq⟩
  · rw [handler_rejected w r ev hm hd h]
    intro x hx
    simp at hx

theorem no_fetch_without_trigger_or_url_witness :
    (demoWorld 200 true true).jsonDecode "!https://example.com/a.jpg" =
        .ok (demoInbound "!https://example.com/a.jpg") ∧
      (containsAny (demoInbound "!https://example.com/a.jpg").tags "t" ["anonymousface"] = false ∨
        extractUrl (demoInbound "!https://example.com/a.jpg").content = none) ∧
      ∀ x ∈ (handler (demoWorld 200 true true) ⟨"POST", "!https://example.com/a.jpg"⟩).effects,
        (∀ u, x ≠ .fetch u) ∧ (∀ q, x ≠ .publish q) :=
  ⟨by decide, Or.inl (by decide),
    no_fetch_without_trigger_or_url (demoWorld 200 true true)
      ⟨"POST", "!https://example.com/a.jpg"⟩ (demoInbound "!https://example.com/a.jpg")
      (by decide) (Or.inl (by decide))⟩

/-- C7: when decoding the fetched bytes as an image fails, the response is
status 500 with the decode error's text, the upload is never called and no
outbound message is written. -/
theorem decode_failure_is_server_error {Img Canvas : Type} (w : World Img Canvas)
    (r : Request) (ev : Event) (u : String) (resp : FetchResponse) (e : String)
    (hm : r.method ≠ "GET") (hd : w.jsonDecode r.body = .ok ev)
    (ht : containsAny ev.tags "t" ["anonymousface"] = true)
    (hu : extractUrl ev.content = some u) (hf : w.httpGet u = .ok resp)
    (hi : w.imageDecode resp.body = .error e) :
    handler w r = ⟨[.fetch u, .decodeImage resp.body, .httpError e 500], false⟩ ∧
      ∀ x ∈ (handler w r).effects, (∀ q, x ≠ .publish q) ∧ (∀ out, x ≠ .writeJSON out) := by
  have key : handler w r = ⟨[.fetch u, .decodeImage resp.body, .httpError e 500], false⟩ := by
    rw [handler_accepted w r ev u hm hd ht hu]
    simp [processUrl, hf, hi, statusInternalServerError]
  refine ⟨key, ?_⟩
  rw [key]
  intro x hx
  simp only [List.mem_cons, List.mem_singleton, List.not_mem_nil, or_false] at hx
  rcases hx with hx | hx | hx <;> subst hx <;>
    exact ⟨fun q hq => Effect.noConfusion hq, fun out ho => Effect.noConfusion ho⟩

theorem decode_failure_is_server_error_witness :
    demoRequest.method ≠ "GET" ∧
      (demoWorld 200 false true).jsonDecode demoRequest.body =
        .ok (demoInbound demoRequest.body) ∧
      containsAny (demoInbound demoRequest.body).tags "t" ["anonymousface"] = true ∧
      extractUrl (demoInbound demoRequest.body).content = some "https://example.com/a.jpg" ∧
      (demoWorld 200 false true).httpGet "https://example.com/a.jpg" = .ok ⟨200, [1, 2, 3]⟩ ∧
      (demoWorld 200 false true).imageDecode [1, 2, 3] = .error "image: unknown format" ∧
      (handler (demoWorld 200 false true) demoRequest =
          ⟨[.fetch "https://example.com/a.jpg", .decodeImage [1, 2, 3],
            .httpError "image: unknown format" 500], false⟩ ∧
        ∀ x ∈ (handler (demoWorld 200 false true) demoRequest).effects,
          (∀ q, x ≠ .publish q) ∧ (∀ out, x ≠ .writeJSON out)) :=
  ⟨by decide, by decide, by decide, by decide, by decide, by decide,
    decode_failure_is_server_error (demoWorld 200 false true) demoRequest
      (demoInbound demoRequest.body) "https://example.com/a.jpg" ⟨200, [1, 2, 3]⟩
      "image: unknown format" (by decide) (by decide) (by decide) (by decide) (by decide)
      (by decide)⟩

/-- C1: the reply tag is built from `ev.PubKey` after that field has been
overwritten with the derived key, so the emitted tag list is
`[["e", <derived key>, "", "reply"]]` for every inbound author; in the scenario
request, sent by `alice` and answered with the key `bot`, the tag names `bot`. -/
theorem reply_tag_names_derived_key :
    (∀ (ev : Event) (pub : String) (now : Int) (uploaded : String),
        (replyEvent ev pub now uploaded).tags = [["e", pub, "", "reply"]]) ∧
      (demoInbound demoRequest.body).pubKey = "alice" ∧
      handler (demoWorld 200 true true) demoRequest =
        ⟨[.fetch "https://example.com/a.jpg", .decodeImage [1, 2, 3],
          .publish ⟨"POST", "https://void.cat/upload?cli=true",
            [("V-Content-Type", "image/png"), ("V-Full-Digest", "00"),
              ("V-Filename", "image.png")], [137, 80, 78, 71]⟩,
          .writeJSON
            { id := "id1", pubKey := "bot", createdAt := 1700000000, kind := 1
              tags := [["e", "bot", "", "reply"]]
              content := "https://void.cat/d/abc.png", sig := "sig:5ec" }], false⟩ :=
  ⟨fun _ _ _ _ => rfl, by decide, by decide⟩

/-- C4: a message that parses but lacks the trigger tag, or whose content has no
URL, is not answered at all: the handler panics on `err.Error()` with a nil
`err` and writes nothing, neither a status nor an error text. -/
theorem rejection_panics_without_response :
    handler (demoWorld 200 true true) ⟨"POST", "!https://example.com/a.jpg"⟩ = ⟨[], true⟩ ∧
      handler (demoWorld 200 true true) ⟨"POST", "no link in here"⟩ = ⟨[], true⟩ :=
  ⟨by decide, by decide⟩

/-- C5: when `ev.Sign` returns an error the handler still writes the event as a
JSON response with status 200; in the scenario request with a failing signer the
emitted event carries the id and signature of the inbound message. -/
theorem sign_failure_still_emits :
    ((demoWorld 200 true false).sign "5ec"
        (replyEvent (demoInbound demoRequest.body) "bot" 1700000000
          "https://void.cat/d/abc.png")).2 = some "sign failed" ∧
      handler (demoWorld 200 true false) demoRequest =
        ⟨[.fetch "https://example.com/a.jpg", .decodeImage [1, 2, 3],
          .publish ⟨"POST", "https://void.cat/upload?cli=true",
            [("V-Content-Type", "image/png"), ("V-Full-Digest", "00"),
              ("V-Filename", "image.png")], [137, 80, 78, 71]⟩,
          .writeJSON
            { id := "id0", pubKey := "bot", createdAt := 1700000000, kind := 1
              tags := [["e", "bot", "", "reply"]]
              content := "https://void.cat/d/abc.png", sig := "sig0" }], false⟩ :=
  ⟨by decide, by decide⟩

/-- C6, as the claim states it, fails: a fetch answered with status 404 whose
body decodes as an image is decoded, published and answered with a reply. -/
theorem non2xx_fetch_is_processed :
    (demoWorld 404 true true).httpGet "https://example.com/a.jpg" = .ok ⟨404, [1, 2, 3]⟩ ∧
      handler (demoWorld 404 true true) demoRequest =
        ⟨[.fetch "https://example.com/a.jpg", .decodeImage [1, 2, 3],
          .publish ⟨"POST", "https://void.cat/upload?cli=true",
            [("V-Content-Type", "image/png"), ("V-Full-Digest", "00"),
              ("V-Filename", "image.png")], [137, 80, 78, 71]⟩,
          .writeJSON
            { id := "id1", pubKey := "bot", createdAt := 1700000000, kind := 1
              tags := [["e", "bot", "", "reply"]]
              content := "https://void.cat/d/abc.png", sig := "sig:5ec" }], false⟩ :=
  ⟨by decide, by decide⟩

/-- C6, amended: a request is terminal at the fetch stage when `http.Get` itself
returns an error (status 500 with the error text, nothing decoded, published or
emitted); the status of a response that was received is never looked at, so a
non-2xx response is handled exactly like a 2xx response with the same body. -/
theorem fetch_error_terminal_status_ignored {Img Canvas : Type} (w : World Img Canvas)
    (r : Request) (ev : Event) (u : String) (hm : r.method ≠ "GET")
    (hd : w.jsonDecode r.body = .ok ev)
    (ht : containsAny ev.tags "t" ["anonymousface"] = true)
    (hu : extractUrl ev.content = some u) :
    (∀ e, w.httpGet u = .error e → handler w r = ⟨[.fetch u, .httpError e 500], false⟩) ∧
      ∀ f : Nat → Nat, handler (w.mapStatus f) r = handler w r := by
  constructor
  · intro e he
    rw [handler_accepted w r ev u hm hd ht hu]
    simp [processUrl, he, statusInternalServerError]
  · intro f
    have hd2 : (w.mapStatus f).jsonDecode r.body = .ok ev := hd
    rw [handler_accepted w r ev u hm hd ht hu,
      handler_accepted (w.mapStatus f) r ev u hm hd2 ht hu]
    exact processUrl_mapStatus w f ev u

theorem fetch_error_terminal_status_ignored_witness :
    (⟨"POST", "see https://example.com/down"⟩ : Request).method ≠ "GET" ∧
      (demoWorld 404 true true).jsonDecode "see https://example.com/down" =
        .ok (demoInbound "see https://example.com/down") ∧
      containsAny (demoInbound "see https://example.com/down").tags "t" ["anonymousface"]
        = true ∧
      extractUrl (demoInbound "see https://example.com/down").content =
        some "https://example.com/down" ∧
      (demoWorld 404 true true).httpGet "https://example.com/down" =
        .error "dial tcp: i/o timeout" ∧
      handler (demoWorld 404 true true) ⟨"POST", "see https://example.com/down"⟩ =
        ⟨[.fetch "https://example.com/down", .httpError "dial tcp: i/o timeout" 500], false⟩ ∧
      handler ((demoWorld 404 true true).mapStatus fun _ => 200)
          ⟨"POST", "see https://example.com/down"⟩ =
        handler (demoWorld 404 true true) ⟨"POST", "see https://example.com/down"⟩ :=
  ⟨by decide, by decide, by decide, by decide, by decide,
    (fetch_error_terminal_status_ignored (demoWorld 404 true true)
      ⟨"POST", "see https://example.com/down"⟩ (demoInbound "see https://example.com/down")
      "https://example.com/down" (by decide) (by decide) (by decide) (by decide)).1
      "dial tcp: i/o timeout" (by decide),
    (fetch_error_terminal_status_ignored (demoWorld 404 true true)
      ⟨"POST", "see https://example.com/down"⟩ (demoInbound "see https://example.com/down")
      "https://example.com/down" (by decide) (by decide) (by decide) (by decide)).2
      fun _ => 200⟩

/-- C2: when every stage of a request succeeds, signing included, the handler
writes exactly what `Sign` produced from the message whose author is the key
derived from the secret and whose content is the normalised published URL;
nothing is changed after signing. If `Sign` leaves author, timestamp, tags and
content as they were, the emitted message carries that author and that content,
its signature is the one computed over exactly the emitted fields, and any
verifier that accepts whatever `Sign` produces accepts the emitted message. -/
theorem emitted_message_is_signed {Img Canvas : Type} (w : World Img Canvas) (r : Request)
    (ev : Event) (u : String) (resp : FetchResponse) (img : Img) (buf : Bytes)
    (uploaded sk pub : String) (hm : r.method ≠ "GET") (hd : w.jsonDecode r.body = .ok ev)
    (ht : containsAny ev.tags "t" ["anonymousface"] = true)
    (hu : extractUrl ev.content = some u) (hf : w.httpGet u = .ok resp)
    (hi : w.imageDecode resp.body = .ok img)
    (he : w.pngEncode (composite w img (detectFaces w img)) = .ok buf)
    (hp : upload w buf = .ok uploaded) (hn : w.nip19Decode w.nsec = .ok (.str sk))
    (hk : w.getPublicKey sk = .ok pub)
    (hs : (w.sign sk (replyEvent ev pub w.now (normalizeUploaded uploaded))).2 = none)
    (hframe : signedFields (w.sign sk (replyEvent ev pub w.now (normalizeUploaded uploaded))).1
      = signedFields (replyEvent ev pub w.now (normalizeUploaded uploaded))) :
    ∃ out : Event,
      handler w r = ⟨[.fetch u, .decodeImage resp.body, .publish (uploadRequest w buf),
        .writeJSON out], false⟩ ∧
      out = (w.sign sk (replyEvent ev pub w.now (normalizeUploaded uploaded))).1 ∧
      out.pubKey = pub ∧ out.content = normalizeUploaded uploaded ∧
      signedFields (replyEvent ev pub w.now (normalizeUploaded uploaded)) =
        (out.pubKey, out.createdAt, out.tags, out.content) ∧
      ∀ verify : Event → Bool,
        (∀ k e, (w.sign k e).2 = none → verify (w.sign k e).1 = true) → verify out = true := by
  refine ⟨(w.sign sk (replyEvent ev pub w.now (normalizeUploaded uploaded))).1, ?_, rfl, ?_, ?_,
    ?_, ?_⟩
  · rw [handler_accepted w r ev u hm hd ht hu]
    exact processUrl_success w ev u resp img buf uploaded sk pub hf hi he hp hn hk
  · have := congrArg (fun t => t.1) hframe
    simpa [signedFields, replyEvent] using this
  · have := congrArg (fun t => t.2.2.2) hframe
    simpa [signedFields, replyEvent] using this
  · rw [← hframe]
    rfl
  · intro verify hv
    exact hv sk _ hs

theorem emitted_message_is_signed_witness :
    demoRequest.method ≠ "GET" ∧
      (demoWorld 200 true true).jsonDecode demoRequest.body =
        .ok (demoInbound demoRequest.body) ∧
      containsAny (demoInbound demoRequest.body).tags "t" ["anonymousface"] = true ∧
      extractUrl (demoInbound demoRequest.body).content = some "https://example.com/a.jpg" ∧
      (demoWorld 200 true true).httpGet "https://example.com/a.jpg" = .ok ⟨200, [1, 2, 3]⟩ ∧
      (demoWorld 200 true true).imageDecode [1, 2, 3] = .ok (200, 200) ∧
      (demoWorld 200 true true).pngEncode
          (composite (demoWorld 200 true true) (200, 200)
            (detectFaces (demoWorld 200 true true) (200, 200))) = .ok [137, 80, 78, 71] ∧
      upload (demoWorld 200 true true) [137, 80, 78, 71] = .ok "http://void.cat/d/abc" ∧
      (demoWorld 200 true true).nip19Decode (demoWorld 200 true true).nsec = .ok (.str "5ec") ∧
      (demoWorld 200 true true).getPublicKey "5ec" = .ok "bot" ∧
      ∃ out : Event,
        handler (demoWorld 200 true true) demoRequest =
          ⟨[.fetch "https://example.com/a.jpg", .decodeImage [1, 2, 3],
            .publish (uploadRequest (demoWorld 200 true true) [137, 80, 78, 71]),
            .writeJSON out], false⟩ ∧
        out = ((demoWorld 200 true true).sign "5ec"
          (replyEvent (demoInbound demoRequest.body) "bot" (demoWorld 200 true true).now
            (normalizeUploaded "http://void.cat/d/abc"))).1 ∧
        out.pubKey = "bot" ∧ out.content = normalizeUploaded "http://void.cat/d/abc" ∧
        signedFields (replyEvent (demoInbound demoRequest.body) "bot"
            (demoWorld 200 true true).now (normalizeUploaded "http://void.cat/d/abc")) =
          (out.pubKey, out.createdAt, out.tags, out.content) ∧
        ∀ verify : Event → Bool,
          (∀ k e, ((demoWorld 200 true true).sign k e).2 = none →
            verify ((demoWorld 200 true true).sign k e).1 = true) → verify out = true :=
  ⟨by decide, by decide, by decide, by decide, by decide, by decide, by decide, by decide,
    by decide, by decide,
    emitted_message_is_signed (demoWorld 200 true true) demoRequest
      (demoInbound demoRequest.body) "https://example.com/a.jpg" ⟨200, [1, 2, 3]⟩ (200, 200)
      [137, 80, 78, 71] "http://void.cat/d/abc" "5ec" "bot" (by decide) (by decide) (by decide)
      (by decide) (by decide) (by decide) (by decide) (by decide) (by decide) (by decide)
      (by decide) (by decide)⟩

/-- C8: when the content contains a URL (an occurrence of `http://` or `https://`
followed by a class character), the URL handed to `http.Get` is the first one:
it starts at the earliest such occurrence and extends over the maximal run of
class characters; for the scenario content it is `https://example.com/a.jpg`. -/
theorem fetched_url_is_first (content : String)
    (h : ∃ k, UrlStartsAt (content.toList.drop k)) :
    ∃ u pre scheme run post,
      extractUrl content = some (String.mk u) ∧ specFirstUrl content.toList = some u ∧
      content.toList = pre ++ u ++ post ∧ u = scheme ++ run ∧
      (scheme = "http://".toList ∨ scheme = "https://".toList) ∧ run ≠ [] ∧
      (∀ c ∈ run, urlClass c = true) ∧ (∀ c, post.head? = some c → urlClass c = false) ∧
      (∀ k, k < pre.length → ¬ UrlStartsAt (content.toList.drop k)) ∧
      (∀ (Img Canvas : Type) (w : World Img Canvas) (r : Request) (ev : Event),
        r.method ≠ "GET" →
        w.jsonDecode r.body = .ok ev → ev.content = content →
        containsAny ev.tags "t" ["anonymousface"] = true →
        (handler w r).effects.head? = some (.fetch (String.mk u))) ∧
      extractUrl "check this out https://example.com/a.jpg #anonymousface" =
        some "https://example.com/a.jpg" := by
  cases hs : specFirstUrl content.toList with
  | none =>
    obtain ⟨k, hk⟩ := h
    exact absurd hk (not_urlStartsAt_of_specFirstUrl_none _ hs k)
  | some u =>
    have hx : extractUrl content = some (String.mk u) := by
      rw [extractUrl_eq_spec, hs]
      rfl
    obtain ⟨pre, rest, h1, h2, h3⟩ := specFirstUrl_some _ _ hs
    obtain ⟨scheme, run, post, g1, g2, g3, g4, g5, g6⟩ := specUrlAt_some _ _ h2
    refine ⟨u, pre, scheme, run, post, hx, rfl, ?_, g2, g1, g3, g4, g6, h3, ?_, by decide⟩
    · rw [h1, g5, List.append_assoc]
    · intro Img Canvas w r ev hm hd hc ht
      subst hc
      rw [handler_accepted w r ev (String.mk u) hm hd ht hx]
      exact processUrl_head_fetch w ev (String.mk u)

theorem fetched_url_is_first_witness :
    (∃ k, UrlStartsAt
        ("check this out https://example.com/a.jpg #anonymousface".toList.drop k)) ∧
      ∃ u pre scheme run post,
        extractUrl "check this out https://example.com/a.jpg #anonymousface" =
          some (String.mk u) ∧
        specFirstUrl "check this out https://example.com/a.jpg #anonymousface".toList =
          some u ∧
        "check this out https://example.com/a.jpg #anonymousface".toList = pre ++ u ++ post ∧
        u = scheme ++ run ∧
        (scheme = "http://".toList ∨ scheme = "https://".toList) ∧ run ≠ [] ∧
        (∀ c ∈ run, urlClass c = true) ∧ (∀ c, post.head? = some c → urlClass c = false) ∧
        (∀ k, k < pre.length → ¬ UrlStartsAt
          ("check this out https://example.com/a.jpg #anonymousface".toList.drop k)) ∧
        (∀ (Img Canvas : Type) (w : World Img Canvas) (r : Request) (ev : Event),
        r.method ≠ "GET" →
          w.jsonDecode r.body = .ok ev →
          ev.content = "check this out https://example.com/a.jpg #anonymousface" →
          containsAny ev.tags "t" ["anonymousface"] = true →
          (handler w r).effects.head? = some (.fetch (String.mk u))) ∧
        extractUrl "check this out https://example.com/a.jpg #anonymousface" =
          some "https://example.com/a.jpg" :=
  ⟨⟨15, "https://".toList, 'e', Or.inr rfl, by decide, by decide⟩,
    fetched_url_is_first "check this out https://example.com/a.jpg #anonymousface"
      ⟨15, "https://".toList, 'e', Or.inr rfl, by decide, by decide⟩⟩

/-- C10, as the claim states it, fails: for a cluster of scale `-2` the side asked
of the resampler is `uint(-2) = 18446744073709551614`, not the scale, and for a
cluster at column `-9223372036854775808` with scale `2` the corner coordinate
`column − scale/2` wraps around to `9223372036854775807`. -/
theorem overlay_of_out_of_range_cluster :
    composite (demoWorld 200 true true) (200, 200) [⟨10, 10, -2⟩] =
        [(0, 0, 200, 200), (11, 11, 18446744073709551614, 18446744073709551614)] ∧
      ((18446744073709551614 : Nat) : Int) ≠ -2 ∧
      composite (demoWorld 200 true true) (200, 200) [⟨0, -9223372036854775808, 2⟩] =
        [(0, 0, 200, 200), (9223372036854775807, -1, 2, 2)] ∧
      (9223372036854775807 : Int) ≠ -9223372036854775808 - 2 / 2 :=
  ⟨by decide, by decide, by decide, by decide⟩

/-- C10, amended: for clusters whose scale is not negative and whose scale and
corner coordinates fit a 64-bit `int`, the compositor draws one overlay per
cluster in sequence order, each the mask resampled to `scale × scale` and placed
at `(column − scale/2, row − scale/2)`; a later cluster is drawn on the canvas
that already carries the earlier ones; with no cluster the canvas is the fresh
canvas with the source image drawn on it and nothing else; and the image the
handler encodes and publishes is that canvas for the clusters it detected. -/
theorem composite_draws_each_cluster {Img Canvas : Type} (w : World Img Canvas) (img : Img)
    (faces : List Detection) (h : ∀ face ∈ faces, face.InRange) :
    composite w img faces =
        (faces.map specOverlay).foldl (drawOverlay w)
          (w.drawOver (w.newRGBA (w.bounds img)) (w.bounds img) img (0, 0)) ∧
      (faces.map specOverlay).length = faces.length ∧
      (∀ face : Detection, face.InRange →
        composite w img (faces ++ [face]) =
          drawOverlay w (composite w img faces) (specOverlay face)) ∧
      composite w img [] = w.drawOver (w.newRGBA (w.bounds img)) (w.bounds img) img (0, 0) ∧
      ∀ (ev : Event) (u : String) (resp : FetchResponse) (buf : Bytes),
        w.httpGet u = .ok resp → w.imageDecode resp.body = .ok img →
        detectFaces w img = faces →
        w.pngEncode ((faces.map specOverlay).foldl (drawOverlay w)
          (w.drawOver (w.newRGBA (w.bounds img)) (w.bounds img) img (0, 0))) = .ok buf →
        Effect.publish (uploadRequest w buf) ∈ (processUrl w ev u).effects := by
  have step : ∀ (canvas : Canvas) (face : Detection), face.InRange →
      drawFace w canvas face = drawOverlay w canvas (specOverlay face) := by
    intro canvas face hface
    obtain ⟨h1, h2, h3, h4, h5, h6⟩ := hface
    have hd : Int.tdiv face.scale 2 = face.scale / 2 := Int.tdiv_eq_ediv h1 (by decide)
    have hx : wrapInt (face.col - face.scale / 2) = face.col - face.scale / 2 := by
      unfold wrapInt
      omega
    have hy : wrapInt (face.row - face.scale / 2) = face.row - face.scale / 2 := by
      unfold wrapInt
      omega
    have hu : toUint face.scale = face.scale.toNat := by
      unfold toUint
      rw [Int.emod_eq_of_lt h1 (by omega)]
    simp only [drawFace, drawOverlay, specOverlay, facePoint, hd, hx, hy, hu]
  have fold : ∀ (l : List Detection) (canvas : Canvas), (∀ face ∈ l, face.InRange) →
      l.foldl (drawFace w) canvas = (l.map specOverlay).foldl (drawOverlay w) canvas := by
    intro l
    induction l with
    | nil => intro canvas _; rfl
    | cons face rest ih =>
      intro canvas hl
      simp only [List.foldl_cons, List.map_cons]
      rw [step canvas face (hl face (List.mem_cons_self _ _))]
      exact ih _ (fun f hf => hl f (List.mem_cons_of_mem _ hf))
  have key : composite w img faces =
      (faces.map specOverlay).foldl (drawOverlay w)
        (w.drawOver (w.newRGBA (w.bounds img)) (w.bounds img) img (0, 0)) := by
    simp only [composite, baseCanvas]
    exact fold faces _ h
  refine ⟨key, by simp, ?_, ?_, ?_⟩
  · intro face hface
    simp only [composite, List.foldl_append, List.foldl_cons, List.foldl_nil]
    exact step _ face hface
  · simp only [composite, baseCanvas, List.foldl_nil]
  · intro ev u resp buf hf hi hfaces he
    rw [← key, ← hfaces] at he
    simp only [processUrl, hf, hi, he]
    split
    · simp
    · unfold signAndEmit
      split
      · simp
      · simp
      · split <;> simp

theorem composite_draws_each_cluster_witness :
    (∀ face ∈ [(⟨100, 100, 40⟩ : Detection), ⟨30, 50, 21⟩], face.InRange) ∧
      composite (demoWorld 200 true true) (200, 200) [⟨100, 100, 40⟩, ⟨30, 50, 21⟩] =
        [(0, 0, 200, 200), (80, 80, 40, 40), (40, 20, 21, 21)] ∧
      composite (demoWorld 200 true true) (200, 200) [] = [(0, 0, 200, 200)] ∧
      (composite (demoWorld 200 true true) (200, 200) [⟨100, 100, 40⟩, ⟨30, 50, 21⟩] =
          ([(⟨100, 100, 40⟩ : Detection), ⟨30, 50, 21⟩].map specOverlay).foldl
            (drawOverlay (demoWorld 200 true true))
            ((demoWorld 200 true true).drawOver
              ((demoWorld 200 true true).newRGBA ((demoWorld 200 true true).bounds (200, 200)))
              ((demoWorld 200 true true).bounds (200, 200)) (200, 200) (0, 0)) ∧
        ([(⟨100, 100, 40⟩ : Detection), ⟨30, 50, 21⟩].map specOverlay).length =
          [(⟨100, 100, 40⟩ : Detection), ⟨30, 50, 21⟩].length ∧
        (∀ face : Detection, face.InRange →
          composite (demoWorld 200 true true) (200, 200)
              ([⟨100, 100, 40⟩, ⟨30, 50, 21⟩] ++ [face]) =
            drawOverlay (demoWorld 200 true true)
              (composite (demoWorld 200 true true) (200, 200) [⟨100, 100, 40⟩, ⟨30, 50, 21⟩])
              (specOverlay face)) ∧
        composite (demoWorld 200 true true) (200, 200) [] =
          (demoWorld 200 true true).drawOver
            ((demoWorld 200 true true).newRGBA ((demoWorld 200 true true).bounds (200, 200)))
            ((demoWorld 200 true true).bounds (200, 200)) (200, 200) (0, 0) ∧
        ∀ (ev : Event) (u : String) (resp : FetchResponse) (buf : Bytes),
          (demoWorld 200 true true).httpGet u = .ok resp →
          (demoWorld 200 true true).imageDecode resp.body = .ok (200, 200) →
          detectFaces (demoWorld 200 true true) (200, 200) = [⟨100, 100, 40⟩, ⟨30, 50, 21⟩] →
          (demoWorld 200 true true).pngEncode
            (([(⟨100, 100, 40⟩ : Detection), ⟨30, 50, 21⟩].map specOverlay).foldl
              (drawOverlay (demoWorld 200 true true))
              ((demoWorld 200 true true).drawOver
                ((demoWorld 200 true true).newRGBA
                  ((demoWorld 200 true true).bounds (200, 200)))
                ((demoWorld 200 true true).bounds (200, 200)) (200, 200) (0, 0))) = .ok buf →
          Effect.publish (uploadRequest (demoWorld 200 true true) buf) ∈
            (processUrl (demoWorld 200 true true) ev u).effects) :=
  ⟨by
      intro face hface
      simp only [List.mem_cons, List.mem_singleton, List.not_mem_nil, or_false] at hface
      rcases hface with rfl | rfl <;> (simp only [Detection.InRange]; decide),
    by decide, by decide,
    composite_draws_each_cluster (demoWorld 200 true true) (200, 200)
      [⟨100, 100, 40⟩, ⟨30, 50, 21⟩] (by
        intro face hface
        simp only [List.mem_cons, List.mem_singleton, List.not_mem_nil, or_false] at hface
        rcases hface with rfl | rfl <;> (simp only [Detection.InRange]; decide))⟩

theorem not_scheme_prefix_of_append_png (s : List Char)
    (h : ¬ ['h', 't', 't', 'p', ':', '/', '/'] <+: s) :
    ¬ ['h', 't', 't', 'p', ':', '/', '/'] <+: s ++ ['.', 'p', 'n', 'g'] := by
  intro hp
  rcases List.prefix_or_prefix_of_prefix hp (List.prefix_append s _) with h1 | h1
  · exact h h1
  · have hlen : s.length ≤ 7 := h1.length_le
    have hs := List.prefix_iff_eq_take.mp h1
    generalize hn : s.length = n at hs hlen
    interval_cases n <;> subst hs <;>
      first
        | exact absurd hp (by decide)
        | exact absurd (by decide) h

/-- C9: when the publish collaborator answers the upload with the string `s` and
the remaining stages succeed, the content of the message the handler writes is
`s` with `http://` replaced by `https://` when `s` starts with `http://`,
followed by `.png`; it ends in `.png` and does not start with `http://`. The
external `Sign` is taken to leave the content of the message as it was. -/
theorem outbound_content_is_normalized {Img Canvas : Type} (w : World Img Canvas)
    (r : Request) (ev : Event) (u : String) (resp : FetchResponse) (img : Img) (buf : Bytes)
    (s sk pub : String) (hm : r.method ≠ "GET") (hd : w.jsonDecode r.body = .ok ev)
    (ht : containsAny ev.tags "t" ["anonymousface"] = true)
    (hu : extractUrl ev.content = some u) (hf : w.httpGet u = .ok resp)
    (hi : w.imageDecode resp.body = .ok img)
    (he : w.pngEncode (composite w img (detectFaces w img)) = .ok buf)
    (hp : w.httpDo (uploadRequest w buf) = .ok (.ok s))
    (hn : w.nip19Decode w.nsec = .ok (.str sk)) (hk : w.getPublicKey sk = .ok pub)
    (hc : ∀ e : Event, (w.sign sk e).1.content = e.content) :
    ∃ out : Event,
      handler w r = ⟨[.fetch u, .decodeImage resp.body, .publish (uploadRequest w buf),
        .writeJSON out], false⟩ ∧
      out.content =
        (if "http://".toList.isPrefixOf s.toList then
          "https://" ++ String.mk (s.toList.drop 7) ++ ".png"
        else s ++ ".png") ∧
      ".png".toList <:+ out.content.toList ∧
      ¬ "http://".toList <+: out.content.toList := by
  have hrun : handler w r = ⟨[.fetch u, .decodeImage resp.body, .publish (uploadRequest w buf),
      .writeJSON (w.sign sk (replyEvent ev pub w.now (normalizeUploaded s))).1], false⟩ := by
    simp [handler, hm, hd, ht, hu, processUrl, hf, hi, he, upload, hp, signAndEmit, hn, hk]
  have hcont : (w.sign sk (replyEvent ev pub w.now (normalizeUploaded s))).1.content =
      normalizeUploaded s := by
    rw [hc]
    simp only [replyEvent]
  have hl : (normalizeUploaded s).data =
      if ['h', 't', 't', 'p', ':', '/', '/'].isPrefixOf s.data then
        ['h', 't', 't', 'p', 's'] ++ s.data.drop 4 ++ ['.', 'p', 'n', 'g']
      else s.data ++ ['.', 'p', 'n', 'g'] := by
    unfold normalizeUploaded
    split <;> simp_all [String.toList]
  refine ⟨(w.sign sk (replyEvent ev pub w.now (normalizeUploaded s))).1, hrun, ?_, ?_, ?_⟩
  · rw [hcont]
    apply String.ext
    simp only [String.toList]
    rw [hl]
    by_cases hp2 : ['h', 't', 't', 'p', ':', '/', '/'].isPrefixOf s.data = true
    · obtain ⟨t, ht2⟩ := List.isPrefixOf_iff_prefix.mp hp2
      simp only [hp2, if_true, String.data_append]
      rw [← ht2]
      simp
    · simp only [hp2, String.data_append]
      simp
  · rw [hcont]
    simp only [String.toList]
    rw [hl]
    split
    · exact List.suffix_append _ _
    · exact List.suffix_append _ _
  · rw [hcont]
    simp only [String.toList]
    rw [hl]
    by_cases hp2 : ['h', 't', 't', 'p', ':', '/', '/'].isPrefixOf s.data = true
    · obtain ⟨t, ht2⟩ := List.isPrefixOf_iff_prefix.mp hp2
      simp only [hp2, if_true]
      rw [← ht2]
      simp
    · simp only [hp2]
      exact not_scheme_prefix_of_append_png s.data
        (fun e => hp2 (List.isPrefixOf_iff_prefix.mpr e))

theorem outbound_content_is_normalized_witness :
    demoRequest.method ≠ "GET" ∧
      (demoWorld 200 true true).jsonDecode demoRequest.body =
        .ok (demoInbound demoRequest.body) ∧
      containsAny (demoInbound demoRequest.body).tags "t" ["anonymousface"] = true ∧
      extractUrl (demoInbound demoRequest.body).content = some "https://example.com/a.jpg" ∧
      (demoWorld 200 true true).httpGet "https://example.com/a.jpg" = .ok ⟨200, [1, 2, 3]⟩ ∧
      (demoWorld 200 true true).imageDecode [1, 2, 3] = .ok (200, 200) ∧
      (demoWorld 200 true true).pngEncode
          (composite (demoWorld 200 true true) (200, 200)
            (detectFaces (demoWorld 200 true true) (200, 200))) = .ok [137, 80, 78, 71] ∧
      (demoWorld 200 true true).httpDo
          (uploadRequest (demoWorld 200 true true) [137, 80, 78, 71]) =
        .ok (.ok "http://void.cat/d/abc") ∧
      (demoWorld 200 true true).nip19Decode (demoWorld 200 true true).nsec = .ok (.str "5ec") ∧
      (demoWorld 200 true true).getPublicKey "5ec" = .ok "bot" ∧
      (∀ e : Event, ((demoWorld 200 true true).sign "5ec" e).1.content = e.content) ∧
      (handler (demoWorld 200 true true) demoRequest).effects.getLast? =
        some (.writeJSON
          { id := "id1", pubKey := "bot", createdAt := 1700000000, kind := 1
            tags := [["e", "bot", "", "reply"]]
            content := "https://void.cat/d/abc.png", sig := "sig:5ec" }) ∧
      ∃ out : Event,
        handler (demoWorld 200 true true) demoRequest =
          ⟨[.fetch "https://example.com/a.jpg", .decodeImage [1, 2, 3],
            .publish (uploadRequest (demoWorld 200 true true) [137, 80, 78, 71]),
            .writeJSON out], false⟩ ∧
        out.content =
          (if "http://".toList.isPrefixOf "http://void.cat/d/abc".toList then
            "https://" ++ String.mk ("http://void.cat/d/abc".toList.drop 7) ++ ".png"
          else "http://void.cat/d/abc" ++ ".png") ∧
        ".png".toList <:+ out.content.toList ∧
        ¬ "http://".toList <+: out.content.toList :=
  ⟨by decide, by decide, by decide, by decide, by decide, by decide, by decide, by decide,
    by decide, by decide, fun _ => rfl, by decide,
    outbound_content_is_normalized (demoWorld 200 true true) demoRequest
      (demoInbound demoRequest.body) "https://example.com/a.jpg" ⟨200, [1, 2, 3]⟩ (200, 200)
      [137, 80, 78, 71] "http://void.cat/d/abc" "5ec" "bot" (by decide) (by decide) (by decide)
      (by decide) (by decide) (by decide) (by decide) (by decide) (by decide) (by decide)
      (fun _ => rfl)⟩

end AnonymousFace
